import Mathlib

/-!
Shallow embedding of the FactoryScript interpreter core, translated from:
  - src/fabricate/src/lib.rs        (namespace `Fabricate`)
  - src/interpreter/src/station.rs  (namespace `Interpreter`)
  - src/interpreter/src/preprocessor/tests.rs (namespace `Interpreter`,
    the preprocessor implementation itself is not among the staged sources:
    those definitions are modelled from spec.md and pinned by the unit tests
    in tests.rs, as their doc comments state).

Shared data types (`Direction`, `SourceLocation`, `Pallet`, `Error`) are
imported by both crates from a core crate (`use core::*` / `use fs_core::*`)
that is not among the staged sources; they are modelled once at top level
from their uses and from spec.md section 3.
-/

/-- Cardinal directions, from `enum Direction` in src/fabricate/src/lib.rs. -/
inductive Direction where
  | NORTH
  | SOUTH
  | EAST
  | WEST
deriving DecidableEq

/-- `impl Not for Direction` in src/fabricate/src/lib.rs: the opposite direction. -/
def Direction.not : Direction → Direction
  | Direction.NORTH => Direction.SOUTH
  | Direction.EAST => Direction.WEST
  | Direction.SOUTH => Direction.NORTH
  | Direction.WEST => Direction.EAST

/-- `struct SourceLocation` in src/fabricate/src/lib.rs: a span of characters
in the source code (line, column, length). -/
structure SourceLocation where
  line : Nat
  col : Nat
  len : Nat
deriving DecidableEq

/-- `SourceLocation::none()` in src/fabricate/src/lib.rs: the sentinel value
for "not applicable". -/
def SourceLocation.none : SourceLocation :=
  { line := 0, col := 0, len := 0 }

/-- Modelled from the spec: the `Pallet` value type lives in the core crate,
which is not among the staged sources. Spec section 3: "a closed value
variant set, minimally (Empty, Int(integer), Char(character))"; the variants
match the uses `Pallet::Empty`, `Pallet::Int(3)`, `Pallet::Char('a')` in
src/fabricate/src/lib.rs. -/
inductive Pallet where
  | Empty
  | Int (val : Int)
  | Char (val : Char)
deriving DecidableEq

/-- Modelled from the spec: the error kinds of the missing `error` module that
this development needs. Spec section 7 names a structural error (zero or
several entry stations) and an identifier-resolution error; `IdentifierError`
is the variant src/fabricate/src/lib.rs and src/interpreter/src/station.rs
construct on lookup failure. -/
inductive ErrorType where
  | IdentifierError
  | StructuralError
deriving DecidableEq

/-- The error record `Error { t, loc, msg }` as constructed in
src/interpreter/src/station.rs. -/
structure Error where
  t : ErrorType
  loc : SourceLocation
  msg : String
deriving DecidableEq

/-- `Error::new(t, loc, msg)` as called in src/fabricate/src/lib.rs. -/
def Error.new (t : ErrorType) (loc : SourceLocation) (msg : String) : Error :=
  { t := t, loc := loc, msg := msg }

namespace Fabricate

/-- A `static` item declaration of src/fabricate/src/lib.rs, recorded with
whether it is declared `static mut` (process-wide mutable). -/
structure StaticDecl where
  name : String
  mutable : Bool
deriving DecidableEq

/-- Lines 1-2 of src/fabricate/src/lib.rs:
`pub static mut COLOR_OUTPUT: bool = false;` and
`pub static mut DEBUG_LEVEL: u8 = 0;` — both declared `static mut`. -/
def fabricate_statics : List StaticDecl :=
  [{ name := "COLOR_OUTPUT", mutable := true },
   { name := "DEBUG_LEVEL", mutable := true }]

/-- The property claimed of the core: no ambient process-wide mutable
configuration flags (every static of the crate root is immutable). -/
def no_ambient_mutable_flags : Prop :=
  ∀ s ∈ fabricate_statics, s.mutable = false

/-- The station-type capability as src/fabricate/src/lib.rs consumes it:
`Station::new` only calls `station_type.has_id(identifier)`. The type itself
lives in the missing core crate, so it is modelled by that one capability
(spec section 6: "lookup(identifier)"). -/
structure StationType where
  has_id : String → Bool

/-- `struct StationModifiers` in src/fabricate/src/lib.rs. -/
structure StationModifiers where
  reverse : Bool
  priority : Direction

/-- `StationModifiers::default()` in src/fabricate/src/lib.rs. -/
def StationModifiers.default : StationModifiers :=
  { reverse := false, priority := Direction.NORTH }

/-- `StationModifiers::reverse()` in src/fabricate/src/lib.rs: toggles the
reverse flag, keeps the rest (`..self`). Named `reverse'` because the Rust
method shares its name with the `reverse` field. -/
def StationModifiers.reverse' (self : StationModifiers) : StationModifiers :=
  { self with reverse := !self.reverse }

/-- `StationModifiers::with_priority(new_priority)` in src/fabricate/src/lib.rs. -/
def StationModifiers.with_priority (self : StationModifiers) (new_priority : Direction) :
    StationModifiers :=
  { self with priority := new_priority }

/-- `struct Station` in src/fabricate/src/lib.rs. -/
structure Station where
  loc : SourceLocation
  logic : StationType
  modifiers : StationModifiers
  in_bays : List (Option Pallet)
  out_bays : List (Nat × Nat)

/-- `Station::new` in src/fabricate/src/lib.rs: the first station type of the
namespace whose `has_id` accepts the identifier, else an `IdentifierError`
carrying the given location. -/
def Station.new (identifier : String) (loc : SourceLocation) (modifiers : StationModifiers)
    (ns : List StationType) : Except Error Station :=
  match ns.find? (fun station_type => station_type.has_id identifier) with
  | Option.some station_type =>
      Except.ok { loc := loc, logic := station_type, modifiers := modifiers,
                  in_bays := [], out_bays := [] }
  | Option.none =>
      Except.error (Error.new ErrorType.IdentifierError loc
        ("Failed to find station type with identifier \"" ++ identifier ++ "\""))

/-- `Station::clear_in_bays` in src/fabricate/src/lib.rs: every occupied bay
slot is overwritten with `None`; the slots themselves stay. -/
def Station.clear_in_bays (self : Station) : Station :=
  { self with in_bays := self.in_bays.map (fun bay => if bay.isSome then Option.none else bay) }

end Fabricate

namespace Interpreter

/-- The station type record as src/interpreter/src/station.rs and the
preprocessor consume it: lookup compares `identifier == name.id`; the other
fields are modelled from spec section 6 ("input_arity", "is_entry"), which
is all the staged code and claims touch. -/
structure StationType where
  id : String
  input_arity : Nat
  is_entry : Bool
deriving DecidableEq

/-- `struct StationModifiers` in src/interpreter/src/station.rs. -/
structure StationModifiers where
  reverse : Bool
  priority : Direction
deriving DecidableEq

/-- `StationModifiers::default()` in src/interpreter/src/station.rs. -/
def StationModifiers.default : StationModifiers :=
  { reverse := false, priority := Direction.NORTH }

/-- `StationModifiers::reverse()` in src/interpreter/src/station.rs (named
`reverse'` because the method shares its name with the field). -/
def StationModifiers.reverse' (self : StationModifiers) : StationModifiers :=
  { self with reverse := !self.reverse }

/-- `StationModifiers::with_priority(new_priority)` in src/interpreter/src/station.rs. -/
def StationModifiers.with_priority (self : StationModifiers) (new_priority : Direction) :
    StationModifiers :=
  { self with priority := new_priority }

/-- `struct Station` in src/interpreter/src/station.rs. -/
structure Station where
  loc : SourceLocation
  station_type : StationType
  modifiers : StationModifiers
  in_bays : List (Option Pallet)
  out_bays : List (Nat × Nat)
deriving DecidableEq

/-- `Station::new` in src/interpreter/src/station.rs: the first namespace
entry with `identifier == name.id`, else an `IdentifierError` carrying the
given location. -/
def Station.new (identifier : String) (loc : SourceLocation) (modifiers : StationModifiers)
    (ns : List StationType) : Except Error Station :=
  match ns.find? (fun name => identifier == name.id) with
  | Option.some name =>
      Except.ok { loc := loc, station_type := name, modifiers := modifiers,
                  in_bays := [], out_bays := [] }
  | Option.none =>
      Except.error
        { t := ErrorType.IdentifierError, loc := loc,
          msg := "Failed to find station type with identifier \"" ++ identifier ++ "\"" }

/-- `Station::new_in_bay` in src/interpreter/src/station.rs: pushes one empty
input bay. -/
def Station.new_in_bay (self : Station) : Station :=
  { self with in_bays := self.in_bays ++ [Option.none] }

/-- Modelled from the spec: the preprocessor wiring phase (the preprocessor
module itself is not among the staged sources) leaves every station with
`in_bays` of fixed length equal to its station type's input arity, each slot
empty — spec section 3: "in_bays: ordered sequence of optional Pallet (fixed
length = station_type's input arity)". -/
def init_in_bays (st : Station) : Station :=
  { st with in_bays := List.replicate st.station_type.input_arity Option.none }

/-- Modelled from the spec: UTF-8 size in bytes of one character, as the
missing preprocessor needs it to translate byte offsets to character columns
(spec section 4.1: "offset translation must count decoded characters, not
bytes"). Delegates to `Char.utf8Size`. -/
def char_byte_size (c : Char) : Nat :=
  c.utf8Size

/-- Total UTF-8 byte length of a prefix of a line. -/
def byte_len : List Char → Nat
  | [] => 0
  | c :: rest => char_byte_size c + byte_len rest

/-- Modelled from the spec: `get_char_index_from_byte_offset` of the missing
preprocessor module, pinned by the unit tests in
src/interpreter/src/preprocessor/tests.rs — the number of decoded characters
of the line that fit strictly before the given byte offset. -/
def get_char_index_from_byte_offset : Nat → List Char → Nat
  | _, [] => 0
  | offset, c :: rest =>
    if offset < char_byte_size c then 0
    else 1 + get_char_index_from_byte_offset (offset - char_byte_size c) rest

/-- One pass of the marker scanner over a line: the state is `none` outside a
marker and `some (startCol, reversed chars read so far)` inside one. Emits
`(identifier, start column, span length)` for every `[identifier]` found. -/
def scanLineAux : List Char → Nat → Option (Nat × List Char) → List (String × Nat × Nat)
  | [], _, _ => []
  | c :: rest, i, Option.none =>
    if c = '[' then scanLineAux rest (i + 1) (Option.some (i, []))
    else scanLineAux rest (i + 1) Option.none
  | c :: rest, i, Option.some (start, acc) =>
    if c = ']' then
      (String.mk acc.reverse, start, acc.length + 2) :: scanLineAux rest (i + 1) Option.none
    else scanLineAux rest (i + 1) (Option.some (start, c :: acc))

/-- Modelled from the spec: the marker scan of one line of source — "scan
every line left-to-right for a station marker — a bracketed identifier span
`[identifier]`" (spec section 4.1). Columns are character indices. -/
def scanLine (l : List Char) : List (String × Nat × Nat) :=
  scanLineAux l 0 Option.none

/-- All markers of a source text with their source locations, scanning the
lines top to bottom. -/
def markers (lines : List String) : List (String × SourceLocation) :=
  lines.enum.flatMap
    (fun p => (scanLine p.2.data).map
      (fun m => (m.1, { line := p.1, col := m.2.1, len := m.2.2 })))

/-- Whether an identifier resolves against the namespace (spec section 6:
`lookup(identifier)` by the registry). -/
def resolves (ns : List StationType) (id : String) : Bool :=
  (ns.find? (fun t => id == t.id)).isSome

/-- Whether a marker identifier resolves to the entry ("start") station type. -/
def is_entry_id (ns : List StationType) (id : String) : Bool :=
  match ns.find? (fun t => id == t.id) with
  | Option.some t => t.is_entry
  | Option.none => false

/-- Number of markers of the text that resolve to the entry station type. -/
def entry_count (ns : List StationType) (lines : List String) : Nat :=
  ((markers lines).filter (fun m => is_entry_id ns m.1)).length

/-- Builds one station per marker with `Station::new` and default modifiers,
failing on the first identifier that does not resolve (spec section 4.1). -/
def buildStations (ns : List StationType) : List (String × SourceLocation) →
    Except Error (List Station)
  | [] => Except.ok []
  | m :: rest =>
    match Station.new m.1 m.2 StationModifiers.default ns with
    | Except.error e => Except.error e
    | Except.ok st =>
      match buildStations ns rest with
      | Except.error e => Except.error e
      | Except.ok sts => Except.ok (st :: sts)

/-- Indices (counting from `i`) of the stations whose type is the entry type. -/
def findStarts : List Station → Nat → List Nat
  | [], _ => []
  | st :: rest, i =>
    if st.station_type.is_entry then i :: findStarts rest (i + 1)
    else findStarts rest (i + 1)

/-- Modelled from the spec: `discover_stations` of the missing preprocessor
module, pinned by the unit tests in src/interpreter/src/preprocessor/tests.rs
— build a station per marker, then "track how many discovered stations
resolve to the entry type; succeed only if exactly one does, and return its
index" (spec section 4.1); zero or several entry stations is a structural
error with no partial result. -/
def discover_stations (ns : List StationType) (lines : List String) :
    Except Error (List Station × Nat) :=
  match buildStations ns (markers lines) with
  | Except.error e => Except.error e
  | Except.ok stations =>
    match findStarts stations 0 with
    | [i] => Except.ok (stations, i)
    | [] => Except.error (Error.mk ErrorType.StructuralError SourceLocation.none
        "No start station found")
    | _ => Except.error (Error.mk ErrorType.StructuralError SourceLocation.none
        "Multiple start stations found")

/-- A neighbor entry as the preprocessor unit tests record it:
(line, column, direction the neighbor lies in). -/
abbrev Neighbor := Nat × Nat × Direction

/-- Length of row `r` of the character grid (rows may differ in length). -/
def rowLen (map : List (List Char)) (r : Nat) : Nat :=
  (map.getD r []).length

/-- Whether position `(r, c)` lies inside the character grid. -/
def inBounds (map : List (List Char)) (r c : Nat) : Bool :=
  decide (r < map.length) && decide (c < rowLen map r)

/-- Cells bordering the station span to the NORTH, scanned west to east. -/
def northScan (map : List (List Char)) (loc : SourceLocation) : List Neighbor :=
  if loc.line = 0 then []
  else
    (List.range loc.len).filterMap (fun i =>
      if inBounds map (loc.line - 1) (loc.col + i) then
        Option.some (loc.line - 1, loc.col + i, Direction.NORTH)
      else Option.none)

/-- Cells bordering the station span to the SOUTH, scanned west to east. -/
def southScan (map : List (List Char)) (loc : SourceLocation) : List Neighbor :=
  (List.range loc.len).filterMap (fun i =>
    if inBounds map (loc.line + 1) (loc.col + i) then
      Option.some (loc.line + 1, loc.col + i, Direction.SOUTH)
    else Option.none)

/-- The cell bordering the station span to the EAST. -/
def eastScan (map : List (List Char)) (loc : SourceLocation) : List Neighbor :=
  if inBounds map loc.line (loc.col + loc.len) then
    [(loc.line, loc.col + loc.len, Direction.EAST)]
  else []

/-- The cell bordering the station span to the WEST. -/
def westScan (map : List (List Char)) (loc : SourceLocation) : List Neighbor :=
  if loc.col = 0 then []
  else if inBounds map loc.line (loc.col - 1) then
    [(loc.line, loc.col - 1, Direction.WEST)]
  else []

/-- The neighbor group of one direction: a clockwise walk (reverse = false)
visits the NORTH edge west to east and the SOUTH edge east to west; a
counter-clockwise walk the opposite, as the expected outputs of
test_get_neighbors_on_border and test_get_neighbors_reversed in
src/interpreter/src/preprocessor/tests.rs pin. -/
def dirScan (map : List (List Char)) (loc : SourceLocation) (rev : Bool) :
    Direction → List Neighbor
  | Direction.NORTH => if rev then (northScan map loc).reverse else northScan map loc
  | Direction.SOUTH => if rev then southScan map loc else (southScan map loc).reverse
  | Direction.EAST => eastScan map loc
  | Direction.WEST => westScan map loc

/-- The four directions in emission order: the rotation cycle (clockwise
N, E, S, W when reverse = false; counter-clockwise N, W, S, E when
reverse = true) starting at the priority direction (spec section 4.2). -/
def dirOrder : Bool → Direction → List Direction
  | false, Direction.NORTH => [Direction.NORTH, Direction.EAST, Direction.SOUTH, Direction.WEST]
  | false, Direction.EAST => [Direction.EAST, Direction.SOUTH, Direction.WEST, Direction.NORTH]
  | false, Direction.SOUTH => [Direction.SOUTH, Direction.WEST, Direction.NORTH, Direction.EAST]
  | false, Direction.WEST => [Direction.WEST, Direction.NORTH, Direction.EAST, Direction.SOUTH]
  | true, Direction.NORTH => [Direction.NORTH, Direction.WEST, Direction.SOUTH, Direction.EAST]
  | true, Direction.WEST => [Direction.WEST, Direction.SOUTH, Direction.EAST, Direction.NORTH]
  | true, Direction.SOUTH => [Direction.SOUTH, Direction.EAST, Direction.NORTH, Direction.WEST]
  | true, Direction.EAST => [Direction.EAST, Direction.NORTH, Direction.WEST, Direction.SOUTH]

/-- Modelled from the spec: `get_neighbors` of the missing preprocessor
module — every direction's neighbor group, emitted starting at the priority
direction and walking the rotation ("clockwise if reverse=false,
counter-clockwise if reverse=true", spec section 4.2); directions without
neighbors contribute nothing. The within-group order and the
content-independent adjacency are pinned by the expected outputs of the unit
tests in src/interpreter/src/preprocessor/tests.rs. -/
def get_neighbors (map : List (List Char)) (loc : SourceLocation)
    (modifiers : StationModifiers) : List Neighbor :=
  (dirOrder modifiers.reverse modifiers.priority).flatMap
    (dirScan map loc modifiers.reverse)

end Interpreter

/-- The correspondence between the two station-type models of the parallel
implementations: the `has_id` capability consumed by src/fabricate/src/lib.rs
agrees with the `identifier == name.id` comparison of
src/interpreter/src/station.rs. -/
def agree (a : Fabricate.StationType) (b : Interpreter.StationType) : Prop :=
  ∀ s, a.has_id s = (s == b.id)

/-- Field-by-field correspondence of the two `StationModifiers` records. -/
def modEquiv (fm : Fabricate.StationModifiers) (im : Interpreter.StationModifiers) : Prop :=
  fm.reverse = im.reverse ∧ fm.priority = im.priority

/-! ## Reproduction of the unit tests of the repository

The staged preprocessor sources consist of its unit tests; the examples
below check the modelled definitions against every expected value those
tests pin (test_get_neighbors of tests.rs is the one exception: it expects,
for the identical input, a different value than
test_get_neighbors_with_direction, so no function satisfies both; the model
follows the modifier-respecting expectation of
test_get_neighbors_with_direction, test_get_neighbors_reversed and
test_get_neighbors_on_border). -/

/-- The 3x4 grid shared by several neighbor tests in tests.rs. -/
def testMap : List (List Char) :=
  [[' ', ' ', ' ', ' '], [' ', '[', ']', ' '], [' ', ' ', ' ', ' ']]

/-- The one-column grid of the second half of test_get_neighbors_on_border. -/
def borderMap : List (List Char) :=
  [[' ', ' '], ['[', ']'], [' ', ' ']]

/-- The namespace the preprocessor tests run against: the entry type "start"
and the non-entry type "exit". -/
def testNs : List Interpreter.StationType :=
  [{ id := "start", input_arity := 0, is_entry := true },
   { id := "exit", input_arity := 1, is_entry := false }]

example : Interpreter.get_neighbors [[' ', '[', ']', ' ']] ⟨0, 1, 2⟩
    Interpreter.StationModifiers.default
    = [(0, 3, Direction.EAST), (0, 0, Direction.WEST)] := by decide

example : Interpreter.get_neighbors borderMap ⟨1, 0, 2⟩ Interpreter.StationModifiers.default
    = [(0, 0, Direction.NORTH), (0, 1, Direction.NORTH),
       (2, 1, Direction.SOUTH), (2, 0, Direction.SOUTH)] := by decide

example : Interpreter.get_neighbors [['[', ']']] ⟨0, 0, 2⟩
    Interpreter.StationModifiers.default = [] := by decide

example : Interpreter.get_neighbors testMap ⟨1, 1, 2⟩
    (Interpreter.StationModifiers.default.reverse')
    = [(0, 2, Direction.NORTH), (0, 1, Direction.NORTH), (1, 0, Direction.WEST),
       (2, 1, Direction.SOUTH), (2, 2, Direction.SOUTH), (1, 3, Direction.EAST)] := by decide

example : Interpreter.get_neighbors testMap ⟨1, 1, 2⟩
    ((Interpreter.StationModifiers.default.reverse').with_priority Direction.EAST)
    = [(1, 3, Direction.EAST), (0, 2, Direction.NORTH), (0, 1, Direction.NORTH),
       (1, 0, Direction.WEST), (2, 1, Direction.SOUTH), (2, 2, Direction.SOUTH)] := by decide

example : Interpreter.get_neighbors testMap ⟨1, 1, 2⟩
    ((Interpreter.StationModifiers.default.reverse').with_priority Direction.SOUTH)
    = [(2, 1, Direction.SOUTH), (2, 2, Direction.SOUTH), (1, 3, Direction.EAST),
       (0, 2, Direction.NORTH), (0, 1, Direction.NORTH), (1, 0, Direction.WEST)] := by decide

example : Interpreter.get_neighbors testMap ⟨1, 1, 2⟩
    ((Interpreter.StationModifiers.default.reverse').with_priority Direction.WEST)
    = [(1, 0, Direction.WEST), (2, 1, Direction.SOUTH), (2, 2, Direction.SOUTH),
       (1, 3, Direction.EAST), (0, 2, Direction.NORTH), (0, 1, Direction.NORTH)] := by decide

example : Interpreter.get_neighbors testMap ⟨1, 1, 2⟩
    (Interpreter.StationModifiers.default.with_priority Direction.EAST)
    = [(1, 3, Direction.EAST), (2, 2, Direction.SOUTH), (2, 1, Direction.SOUTH),
       (1, 0, Direction.WEST), (0, 1, Direction.NORTH), (0, 2, Direction.NORTH)] := by decide

example : Interpreter.get_neighbors testMap ⟨1, 1, 2⟩
    (Interpreter.StationModifiers.default.with_priority Direction.SOUTH)
    = [(2, 2, Direction.SOUTH), (2, 1, Direction.SOUTH), (1, 0, Direction.WEST),
       (0, 1, Direction.NORTH), (0, 2, Direction.NORTH), (1, 3, Direction.EAST)] := by decide

example : Interpreter.get_neighbors testMap ⟨1, 1, 2⟩
    (Interpreter.StationModifiers.default.with_priority Direction.WEST)
    = [(1, 0, Direction.WEST), (0, 1, Direction.NORTH), (0, 2, Direction.NORTH),
       (1, 3, Direction.EAST), (2, 2, Direction.SOUTH), (2, 1, Direction.SOUTH)] := by decide

example : Interpreter.get_char_index_from_byte_offset 4 ("😼abcd".data) = 1 := by decide

example : Interpreter.get_char_index_from_byte_offset 6 ("😼abcd".data) = 3 := by decide

example : Interpreter.get_char_index_from_byte_offset 2 ("abcd".data) = 2 := by decide

example : Interpreter.get_char_index_from_byte_offset 14 ("😻a😼b😾c".data) = 5 := by decide

example : Interpreter.discover_stations testNs ["[start]"]
    = Except.ok ([⟨⟨0, 0, 7⟩, ⟨"start", 0, true⟩, ⟨false, Direction.NORTH⟩, [], []⟩], 0) := by
  rfl

example : (Interpreter.discover_stations testNs ["[exit][exit]", "[start][exit]"]).toOption.map
    (fun r => (r.1.length, r.2)) = Option.some (4, 2) := by rfl

example : (Interpreter.discover_stations testNs [""]).toOption = Option.none := by rfl

example : (Interpreter.discover_stations testNs ["[start] [start]"]).toOption
    = Option.none := by rfl

/-! ## Claim theorems -/

/-- Claim C7: for every Direction d, not (not d) = d and not d ≠ d (no fixed
point); concretely not swaps NORTH with SOUTH and EAST with WEST. -/
theorem direction_not_involution_no_fixed_point :
    (∀ d : Direction, Direction.not (Direction.not d) = d ∧ Direction.not d ≠ d)
    ∧ Direction.not Direction.NORTH = Direction.SOUTH
    ∧ Direction.not Direction.EAST = Direction.WEST
    ∧ Direction.not Direction.SOUTH = Direction.NORTH
    ∧ Direction.not Direction.WEST = Direction.EAST := by
  refine ⟨fun d => ?_, rfl, rfl, rfl, rfl⟩
  cases d <;> exact ⟨rfl, by decide⟩

/-- Claim C8: StationModifiers::default() is (reverse = false,
priority = NORTH); reverse() negates the reverse flag and keeps priority;
with_priority(d) sets priority to d and keeps the reverse flag — in both
copies of the data model; all three are pure value constructions. -/
theorem station_modifiers_builder_ops (fm : Fabricate.StationModifiers)
    (im : Interpreter.StationModifiers) (d : Direction) :
    Fabricate.StationModifiers.default
      = { reverse := false, priority := Direction.NORTH }
    ∧ (Fabricate.StationModifiers.reverse' fm).reverse = !fm.reverse
    ∧ (Fabricate.StationModifiers.reverse' fm).priority = fm.priority
    ∧ (Fabricate.StationModifiers.with_priority fm d).priority = d
    ∧ (Fabricate.StationModifiers.with_priority fm d).reverse = fm.reverse
    ∧ Interpreter.StationModifiers.default
      = { reverse := false, priority := Direction.NORTH }
    ∧ (Interpreter.StationModifiers.reverse' im).reverse = !im.reverse
    ∧ (Interpreter.StationModifiers.reverse' im).priority = im.priority
    ∧ (Interpreter.StationModifiers.with_priority im d).priority = d
    ∧ (Interpreter.StationModifiers.with_priority im d).reverse = im.reverse :=
  ⟨rfl, rfl, rfl, rfl, rfl, rfl, rfl, rfl, rfl, rfl⟩

/-- Claim C9 (counterexample): the core does hold ambient mutable
process-wide state — src/fabricate/src/lib.rs declares `static mut`
configuration flags, so the claimed property fails. -/
theorem ambient_mutable_flags_cx : ¬ Fabricate.no_ambient_mutable_flags := by
  intro h
  have hmem : ({ name := "COLOR_OUTPUT", mutable := true } : Fabricate.StaticDecl)
      ∈ Fabricate.fabricate_statics := by
    simp [Fabricate.fabricate_statics]
  simpa using h _ hmem

/-- Claim C9 (amended): the fabricate crate root declares exactly the two
process-wide mutable statics COLOR_OUTPUT and DEBUG_LEVEL (`static mut`),
so configuration is ambient mutable process state, not explicit
configuration threaded into the entry points. -/
theorem fabricate_declares_mutable_statics :
    Fabricate.fabricate_statics.all (fun s => s.mutable) = true
    ∧ Fabricate.fabricate_statics.map (fun s => s.name)
      = ["COLOR_OUTPUT", "DEBUG_LEVEL"] :=
  ⟨rfl, rfl⟩

/-- Overwriting every occupied slot with `Option.none` turns the bay list
into `replicate` of its own length: length and slot count are untouched. -/
lemma clear_map_eq_replicate (l : List (Option Pallet)) :
    l.map (fun bay => if bay.isSome then Option.none else bay)
      = List.replicate l.length Option.none := by
  induction l with
  | nil => rfl
  | cons b rest ih =>
    cases b <;> simp [List.replicate_succ, ih]

/-- Claim C6: after the (spec-modelled) bay-initialization of discovery a
station's in_bays length equals its type's input arity; `new_in_bay` is the
only length-changing operation and belongs to wiring; `clear_in_bays`
rewrites the slot contents to empty but preserves the number of slots and
every other field. -/
theorem in_bays_length_invariant (ist : Interpreter.Station) (fst : Fabricate.Station) :
    (Interpreter.init_in_bays ist).in_bays.length = ist.station_type.input_arity
    ∧ (Interpreter.Station.new_in_bay ist).in_bays.length = ist.in_bays.length + 1
    ∧ (Fabricate.Station.clear_in_bays fst).in_bays
      = List.replicate fst.in_bays.length Option.none
    ∧ (Fabricate.Station.clear_in_bays fst).loc = fst.loc
    ∧ (Fabricate.Station.clear_in_bays fst).modifiers = fst.modifiers
    ∧ (Fabricate.Station.clear_in_bays fst).out_bays = fst.out_bays
    ∧ (Fabricate.Station.clear_in_bays fst).logic = fst.logic := by
  refine ⟨?_, ?_, ?_, rfl, rfl, rfl, rfl⟩
  · simp [Interpreter.init_in_bays]
  · simp [Interpreter.Station.new_in_bay]
  · exact clear_map_eq_replicate fst.in_bays

/-- Claim C4: the column computed from a byte offset equals the number of
decoded characters preceding that offset — for every line split as
`pre ++ post`, the offset `byte_len pre` is assigned column `pre.length`;
in particular after one 4-byte and three 1-byte characters a marker at byte
offset 7 gets character-column 4, not 7. -/
theorem char_index_counts_decoded_chars :
    (∀ pre post : List Char,
      Interpreter.get_char_index_from_byte_offset (Interpreter.byte_len pre) (pre ++ post)
        = pre.length)
    ∧ Interpreter.get_char_index_from_byte_offset 7 ("😼abc[s]".data) = 4
    ∧ (4 : Nat) ≠ 7 := by
  refine ⟨?_, by decide, by decide⟩
  intro pre post
  induction pre with
  | nil =>
    cases post with
    | nil => rfl
    | cons c rest =>
      simp [Interpreter.get_char_index_from_byte_offset, Interpreter.byte_len,
        Interpreter.char_byte_size, Char.utf8Size_pos]
  | cons c rest ih =>
    have hpos : 0 < Interpreter.char_byte_size c := Char.utf8Size_pos c
    simp only [Interpreter.byte_len, List.cons_append,
      Interpreter.get_char_index_from_byte_offset]
    rw [if_neg (by omega)]
    have harith : Interpreter.char_byte_size c + Interpreter.byte_len rest
        - Interpreter.char_byte_size c = Interpreter.byte_len rest := by omega
    rw [harith]
    simp only [List.append_eq]
    rw [ih]
    simp [List.length_cons, Nat.add_comm]

/-- Claim C5: Station::new (in both src/fabricate/src/lib.rs and
src/interpreter/src/station.rs) returns an IdentifierError carrying exactly
the given location when no station type of the namespace matches the
identifier, and otherwise Ok with a station whose loc and modifiers equal
the arguments and whose station type is a matching member of the
namespace. -/
theorem station_new_resolution (identifier : String) (loc : SourceLocation)
    (fm : Fabricate.StationModifiers) (im : Interpreter.StationModifiers)
    (fns : List Fabricate.StationType) (ins : List Interpreter.StationType) :
    ((∀ t ∈ fns, t.has_id identifier = false) →
      Fabricate.Station.new identifier loc fm fns =
        Except.error (Error.new ErrorType.IdentifierError loc
          ("Failed to find station type with identifier \"" ++ identifier ++ "\"")))
    ∧ (∀ st, Fabricate.Station.new identifier loc fm fns = Except.ok st →
        st.loc = loc ∧ st.modifiers = fm ∧ st.logic ∈ fns
          ∧ st.logic.has_id identifier = true ∧ st.in_bays = [] ∧ st.out_bays = [])
    ∧ ((∃ st, Fabricate.Station.new identifier loc fm fns = Except.ok st) ↔
        ∃ t ∈ fns, t.has_id identifier = true)
    ∧ ((∀ t ∈ ins, identifier ≠ t.id) →
      Interpreter.Station.new identifier loc im ins =
        Except.error (Error.mk ErrorType.IdentifierError loc
          ("Failed to find station type with identifier \"" ++ identifier ++ "\"")))
    ∧ (∀ st, Interpreter.Station.new identifier loc im ins = Except.ok st →
        st.loc = loc ∧ st.modifiers = im ∧ st.station_type ∈ ins
          ∧ identifier = st.station_type.id ∧ st.in_bays = [] ∧ st.out_bays = [])
    ∧ ((∃ st, Interpreter.Station.new identifier loc im ins = Except.ok st) ↔
        ∃ t ∈ ins, identifier = t.id) := by
  refine ⟨?_, ?_, ?_, ?_, ?_, ?_⟩
  · intro h
    have hnone : fns.find? (fun t => t.has_id identifier) = Option.none := by
      rw [List.find?_eq_none]
      intro t ht
      simp [h t ht]
    simp [Fabricate.Station.new, hnone]
  · intro st hst
    unfold Fabricate.Station.new at hst
    cases hfind : fns.find? (fun t => t.has_id identifier) with
    | none => rw [hfind] at hst; exact absurd hst (by simp)
    | some t =>
      rw [hfind] at hst
      cases hst
      refine ⟨rfl, rfl, List.mem_of_find?_eq_some hfind, ?_, rfl, rfl⟩
      simpa using List.find?_some hfind
  · constructor
    · rintro ⟨st, hst⟩
      unfold Fabricate.Station.new at hst
      cases hfind : fns.find? (fun t => t.has_id identifier) with
      | none => rw [hfind] at hst; exact absurd hst (by simp)
      | some t =>
        refine ⟨t, List.mem_of_find?_eq_some hfind, ?_⟩
        simpa using List.find?_some hfind
    · rintro ⟨t, ht, hp⟩
      cases hfind : fns.find? (fun t => t.has_id identifier) with
      | none => exact absurd (List.find?_eq_none.mp hfind t ht) (by simp [hp])
      | some u =>
        exact ⟨{ loc := loc, logic := u, modifiers := fm, in_bays := [], out_bays := [] },
          by simp [Fabricate.Station.new, hfind]⟩
  · intro h
    have hnone : ins.find? (fun t => identifier == t.id) = Option.none := by
      rw [List.find?_eq_none]
      intro t ht
      simp [h t ht]
    simp [Interpreter.Station.new, hnone]
  · intro st hst
    unfold Interpreter.Station.new at hst
    cases hfind : ins.find? (fun t => identifier == t.id) with
    | none => rw [hfind] at hst; exact absurd hst (by simp)
    | some t =>
      rw [hfind] at hst
      cases hst
      refine ⟨rfl, rfl, List.mem_of_find?_eq_some hfind, ?_, rfl, rfl⟩
      have := List.find?_some hfind
      simpa using this
  · constructor
    · rintro ⟨st, hst⟩
      unfold Interpreter.Station.new at hst
      cases hfind : ins.find? (fun t => identifier == t.id) with
      | none => rw [hfind] at hst; exact absurd hst (by simp)
      | some t =>
        refine ⟨t, List.mem_of_find?_eq_some hfind, ?_⟩
        have := List.find?_some hfind
        simpa using this
    · rintro ⟨t, ht, hp⟩
      cases hfind : ins.find? (fun t => identifier == t.id) with
      | none => exact absurd (List.find?_eq_none.mp hfind t ht) (by simp [hp])
      | some u =>
        exact ⟨{ loc := loc, station_type := u, modifiers := im, in_bays := [], out_bays := [] },
          by simp [Interpreter.Station.new, hfind]⟩

/-- Core of the implementation equivalence: on namespaces whose identifier
matching agrees pointwise, the two `Station::new` versions succeed or fail
together, with matching field contents or matching errors. -/
lemma station_new_equiv_aux (identifier : String) (loc : SourceLocation)
    (fm : Fabricate.StationModifiers) (im : Interpreter.StationModifiers)
    (hm : modEquiv fm im) :
    ∀ {ns₁ : List Fabricate.StationType} {ns₂ : List Interpreter.StationType},
      List.Forall₂ agree ns₁ ns₂ →
      (match Fabricate.Station.new identifier loc fm ns₁,
          Interpreter.Station.new identifier loc im ns₂ with
       | Except.ok st₁, Except.ok st₂ =>
           st₁.loc = st₂.loc ∧ modEquiv st₁.modifiers st₂.modifiers
             ∧ st₁.in_bays = st₂.in_bays ∧ st₁.out_bays = st₂.out_bays
             ∧ agree st₁.logic st₂.station_type
       | Except.error e₁, Except.error e₂ =>
           e₁.t = ErrorType.IdentifierError ∧ e₂.t = e₁.t
             ∧ e₁.loc = loc ∧ e₂.loc = e₁.loc ∧ e₂.msg = e₁.msg
       | _, _ => False) := by
  intro ns₁ ns₂ h
  induction h with
  | nil =>
    simp [Fabricate.Station.new, Interpreter.Station.new, Error.new]
  | @cons a b l₁ l₂ hab htl ih =>
    cases hpa : a.has_id identifier with
    | true =>
      have hpb : (identifier == b.id) = true := by rw [← hab]; exact hpa
      unfold Fabricate.Station.new Interpreter.Station.new
      rw [@List.find?_cons_of_pos _ (fun station_type => station_type.has_id identifier) a l₁ hpa,
        @List.find?_cons_of_pos _ (fun name => identifier == name.id) b l₂ hpb]
      exact ⟨rfl, hm, rfl, rfl, hab⟩
    | false =>
      have hpb : ¬ ((identifier == b.id) = true) := by rw [← hab]; simp [hpa]
      unfold Fabricate.Station.new Interpreter.Station.new
      rw [@List.find?_cons_of_neg _ (fun station_type => station_type.has_id identifier) a l₁
          (by simp [hpa]),
        @List.find?_cons_of_neg _ (fun name => identifier == name.id) b l₂ hpb]
      unfold Fabricate.Station.new Interpreter.Station.new at ih
      exact ih

/-- Claim C10: the two parallel implementations of the station data model —
Station::new and the StationModifiers operations in src/fabricate/src/lib.rs
and src/interpreter/src/station.rs — are behaviorally equivalent: for equal
inputs and namespaces whose matching agrees, the modifier operations produce
corresponding values and Station::new succeeds or fails in the same cases
with identical field contents (location, modifiers, bays, chosen type) or
identical errors. -/
theorem station_model_equiv (identifier : String) (loc : SourceLocation)
    (fm : Fabricate.StationModifiers) (im : Interpreter.StationModifiers)
    (ns₁ : List Fabricate.StationType) (ns₂ : List Interpreter.StationType)
    (hm : modEquiv fm im) (hns : List.Forall₂ agree ns₁ ns₂) :
    modEquiv Fabricate.StationModifiers.default Interpreter.StationModifiers.default
    ∧ modEquiv (Fabricate.StationModifiers.reverse' fm)
        (Interpreter.StationModifiers.reverse' im)
    ∧ (∀ d, modEquiv (Fabricate.StationModifiers.with_priority fm d)
        (Interpreter.StationModifiers.with_priority im d))
    ∧ (match Fabricate.Station.new identifier loc fm ns₁,
          Interpreter.Station.new identifier loc im ns₂ with
       | Except.ok st₁, Except.ok st₂ =>
           st₁.loc = st₂.loc ∧ modEquiv st₁.modifiers st₂.modifiers
             ∧ st₁.in_bays = st₂.in_bays ∧ st₁.out_bays = st₂.out_bays
             ∧ agree st₁.logic st₂.station_type
       | Except.error e₁, Except.error e₂ =>
           e₁.t = ErrorType.IdentifierError ∧ e₂.t = e₁.t
             ∧ e₁.loc = loc ∧ e₂.loc = e₁.loc ∧ e₂.msg = e₁.msg
       | _, _ => False) := by
  obtain ⟨hr, hp⟩ := hm
  refine ⟨⟨rfl, rfl⟩, ⟨by simp [Fabricate.StationModifiers.reverse',
      Interpreter.StationModifiers.reverse', hr], by simpa [Fabricate.StationModifiers.reverse',
      Interpreter.StationModifiers.reverse'] using hp⟩,
    fun d => ⟨by simpa [Fabricate.StationModifiers.with_priority,
      Interpreter.StationModifiers.with_priority] using hr,
      by simp [Fabricate.StationModifiers.with_priority,
        Interpreter.StationModifiers.with_priority]⟩, ?_⟩
  exact station_new_equiv_aux identifier loc fm im ⟨hr, hp⟩ hns

/-- Witness for C10 at a concrete input: one-entry namespaces matching the
identifier "start" with default modifiers on both sides. -/
theorem station_model_equiv_witness :
    modEquiv (Fabricate.StationModifiers.reverse' ⟨false, Direction.NORTH⟩)
      (Interpreter.StationModifiers.reverse' ⟨false, Direction.NORTH⟩) :=
  (station_model_equiv "start" SourceLocation.none ⟨false, Direction.NORTH⟩
    ⟨false, Direction.NORTH⟩ [⟨fun s => s == "start"⟩] [⟨"start", 0, true⟩]
    ⟨rfl, rfl⟩ (List.Forall₂.cons (fun _ => rfl) List.Forall₂.nil)).2.1

/-- Building stations from the marker list succeeds exactly when every
marker identifier resolves, and then yields one station per marker whose
entry flag matches the marker's resolved type. -/
lemma buildStations_spec (ns : List Interpreter.StationType) :
    ∀ ms : List (String × SourceLocation),
      ((∃ sts, Interpreter.buildStations ns ms = Except.ok sts) ↔
        ∀ m ∈ ms, Interpreter.resolves ns m.1 = true)
      ∧ ∀ sts, Interpreter.buildStations ns ms = Except.ok sts →
          sts.length = ms.length
          ∧ sts.countP (fun st => st.station_type.is_entry)
            = ms.countP (fun m => Interpreter.is_entry_id ns m.1) := by
  intro ms
  induction ms with
  | nil =>
    constructor
    · simp [Interpreter.buildStations]
    · intro sts h
      unfold Interpreter.buildStations at h
      cases h
      simp
  | cons m rest ih =>
    cases hfind : ns.find? (fun t => m.1 == t.id) with
    | none =>
      have hnew : Interpreter.Station.new m.1 m.2 Interpreter.StationModifiers.default ns
          = Except.error
            { t := ErrorType.IdentifierError, loc := m.2,
              msg := "Failed to find station type with identifier \"" ++ m.1 ++ "\"" } := by
        simp [Interpreter.Station.new, hfind]
      have hres : Interpreter.resolves ns m.1 = false := by
        simp [Interpreter.resolves, hfind]
      refine ⟨⟨?_, ?_⟩, ?_⟩
      · rintro ⟨sts, hsts⟩
        unfold Interpreter.buildStations at hsts
        rw [hnew] at hsts
        exact absurd hsts (by simp)
      · intro hall
        have := hall m (by simp)
        rw [hres] at this
        cases this
      · intro sts hsts
        unfold Interpreter.buildStations at hsts
        rw [hnew] at hsts
        exact absurd hsts (by simp)
    | some t =>
      have hnew : Interpreter.Station.new m.1 m.2 Interpreter.StationModifiers.default ns
          = Except.ok ⟨m.2, t, Interpreter.StationModifiers.default, [], []⟩ := by
        simp [Interpreter.Station.new, hfind]
      have hres : Interpreter.resolves ns m.1 = true := by
        simp [Interpreter.resolves, hfind]
      have hent : Interpreter.is_entry_id ns m.1 = t.is_entry := by
        simp [Interpreter.is_entry_id, hfind]
      refine ⟨⟨?_, ?_⟩, ?_⟩
      · rintro ⟨sts, hsts⟩
        intro x hx
        rcases List.mem_cons.mp hx with hx | hx
        · subst hx; exact hres
        · unfold Interpreter.buildStations at hsts
          rw [hnew] at hsts
          cases hb : Interpreter.buildStations ns rest with
          | error e => rw [hb] at hsts; exact absurd hsts (by simp)
          | ok sts' => exact ih.1.mp ⟨sts', hb⟩ x hx
      · intro hall
        obtain ⟨sts', hsts'⟩ := ih.1.mpr (fun x hx => hall x (List.mem_cons_of_mem m hx))
        refine ⟨⟨m.2, t, Interpreter.StationModifiers.default, [], []⟩ :: sts', ?_⟩
        unfold Interpreter.buildStations
        rw [hnew, hsts']
      · intro sts hsts
        unfold Interpreter.buildStations at hsts
        rw [hnew] at hsts
        cases hb : Interpreter.buildStations ns rest with
        | error e => rw [hb] at hsts; exact absurd hsts (by simp)
        | ok sts' =>
          rw [hb] at hsts
          cases hsts
          have hih := ih.2 sts' hb
          constructor
          · simp [hih.1]
          · simp [List.countP_cons, hih.2, hent]

/-- `findStarts` lists as many indices as there are entry stations. -/
lemma findStarts_length_countP :
    ∀ (sts : List Interpreter.Station) (b : Nat),
      (Interpreter.findStarts sts b).length
        = sts.countP (fun st => st.station_type.is_entry) := by
  intro sts
  induction sts with
  | nil => intro b; rfl
  | cons st rest ih =>
    intro b
    unfold Interpreter.findStarts
    cases h : st.station_type.is_entry <;> simp [h, List.countP_cons, ih]

/-- Membership in `findStarts`: exactly the (shifted) indices of the entry
stations. -/
lemma findStarts_mem_iff :
    ∀ (sts : List Interpreter.Station) (b j : Nat),
      j ∈ Interpreter.findStarts sts b ↔
        ∃ k, ∃ h : k < sts.length,
          j = b + k ∧ sts[k].station_type.is_entry = true := by
  intro sts
  induction sts with
  | nil => intro b j; simp [Interpreter.findStarts]
  | cons st rest ih =>
    intro b j
    unfold Interpreter.findStarts
    cases h : st.station_type.is_entry with
    | true =>
      rw [if_pos rfl]
      constructor
      · intro hmem
        rcases List.mem_cons.mp hmem with hj | hj
        · exact ⟨0, by simp, by simp [hj], by simpa using h⟩
        · obtain ⟨k, hk, hjk, hkent⟩ := (ih (b + 1) j).mp hj
          exact ⟨k + 1, by simpa using Nat.succ_lt_succ hk, by omega, by simpa using hkent⟩
      · rintro ⟨k, hk, hjk, hkent⟩
        cases k with
        | zero => simp [hjk]
        | succ k' =>
          refine List.mem_cons_of_mem _ ((ih (b + 1) j).mpr ⟨k', ?_, by omega, ?_⟩)
          · exact Nat.lt_of_succ_lt_succ hk
          · simpa using hkent
    | false =>
      rw [if_neg (by simp)]
      rw [ih (b + 1) j]
      constructor
      · rintro ⟨k, hk, hjk, hkent⟩
        exact ⟨k + 1, by simpa using Nat.succ_lt_succ hk, by omega, by simpa using hkent⟩
      · rintro ⟨k, hk, hjk, hkent⟩
        cases k with
        | zero =>
          rw [List.getElem_cons_zero] at hkent
          rw [h] at hkent
          cases hkent
        | succ k' =>
          exact ⟨k', Nat.lt_of_succ_lt_succ hk, by omega, by simpa using hkent⟩

/-- Claim C3: discovery succeeds exactly when every marker identifier
resolves and exactly one marker is an entry-station marker; on success it
returns one station per marker and the index of the unique entry station;
with zero or several entry markers it fails with no partial list. -/
theorem discover_stations_structure (ns : List Interpreter.StationType)
    (lines : List String) :
    ((∃ r, Interpreter.discover_stations ns lines = Except.ok r) ↔
      ((∀ m ∈ Interpreter.markers lines, Interpreter.resolves ns m.1 = true)
        ∧ Interpreter.entry_count ns lines = 1))
    ∧ ∀ sts i, Interpreter.discover_stations ns lines = Except.ok (sts, i) →
        sts.length = (Interpreter.markers lines).length
        ∧ sts.countP (fun st => st.station_type.is_entry) = 1
        ∧ ∃ h : i < sts.length, sts[i].station_type.is_entry = true := by
  have hbuild := buildStations_spec ns (Interpreter.markers lines)
  have hcount : Interpreter.entry_count ns lines
      = (Interpreter.markers lines).countP (fun m => Interpreter.is_entry_id ns m.1) := by
    unfold Interpreter.entry_count
    exact (List.countP_eq_length_filter _ _).symm
  cases hb : Interpreter.buildStations ns (Interpreter.markers lines) with
  | error e =>
    have hd : Interpreter.discover_stations ns lines = Except.error e := by
      unfold Interpreter.discover_stations
      rw [hb]
    constructor
    · constructor
      · rintro ⟨r, hr⟩
        rw [hd] at hr
        exact absurd hr (by simp)
      · rintro ⟨hall, hone⟩
        obtain ⟨sts, hsts⟩ := hbuild.1.mpr hall
        rw [hb] at hsts
        exact absurd hsts (by simp)
    · intro sts i h
      rw [hd] at h
      exact absurd h (by simp)
  | ok sts' =>
    have hlen := (hbuild.2 sts' hb).1
    have hcp := (hbuild.2 sts' hb).2
    have hfsl := findStarts_length_countP sts' 0
    have hd : Interpreter.discover_stations ns lines
        = (match Interpreter.findStarts sts' 0 with
           | [i] => Except.ok (sts', i)
           | [] => Except.error (Error.mk ErrorType.StructuralError SourceLocation.none
               "No start station found")
           | _ => Except.error (Error.mk ErrorType.StructuralError SourceLocation.none
               "Multiple start stations found")) := by
      unfold Interpreter.discover_stations
      rw [hb]
    cases hf : Interpreter.findStarts sts' 0 with
    | nil =>
      rw [hf] at hd
      constructor
      · constructor
        · rintro ⟨r, hr⟩
          rw [hd] at hr
          exact absurd hr (by simp)
        · rintro ⟨hall, hone⟩
          rw [hcount, ← hcp, ← hfsl, hf] at hone
          cases hone
      · intro sts i h
        rw [hd] at h
        exact absurd h (by simp)
    | cons j rest =>
      cases rest with
      | nil =>
        rw [hf] at hd
        have hone : sts'.countP (fun st => st.station_type.is_entry) = 1 := by
          rw [← hfsl, hf]
          rfl
        constructor
        · constructor
          · intro _
            refine ⟨hbuild.1.mp ⟨sts', hb⟩, ?_⟩
            rw [hcount, ← hcp]
            exact hone
          · intro _
            exact ⟨(sts', j), hd⟩
        · intro sts i h
          have hinj := hd.symm.trans h
          simp only [Except.ok.injEq, Prod.mk.injEq] at hinj
          obtain ⟨rfl, rfl⟩ := hinj
          refine ⟨hlen, hone, ?_⟩
          have hjmem : j ∈ Interpreter.findStarts sts' 0 := by
            rw [hf]
            simp
          obtain ⟨k, hk, hjk, hkent⟩ := (findStarts_mem_iff sts' 0 j).mp hjmem
          have hj : j = k := by omega
          subst hj
          exact ⟨hk, hkent⟩
      | cons j' rest' =>
        rw [hf] at hd
        constructor
        · constructor
          · rintro ⟨r, hr⟩
            rw [hd] at hr
            exact absurd hr (by simp)
          · rintro ⟨hall, hone⟩
            rw [hcount, ← hcp, ← hfsl, hf] at hone
            simp at hone
        · intro sts i h
          rw [hd] at h
          exact absurd h (by simp)

/-- Every entry of the NORTH scan is labelled NORTH. -/
lemma northScan_label (map : List (List Char)) (loc : SourceLocation) :
    ∀ e ∈ Interpreter.northScan map loc, e.2.2 = Direction.NORTH := by
  intro e he
  unfold Interpreter.northScan at he
  split at he
  · cases he
  · obtain ⟨i, _, hi⟩ := List.mem_filterMap.mp he
    split at hi
    · cases hi
      rfl
    · cases hi

/-- Every entry of the SOUTH scan is labelled SOUTH. -/
lemma southScan_label (map : List (List Char)) (loc : SourceLocation) :
    ∀ e ∈ Interpreter.southScan map loc, e.2.2 = Direction.SOUTH := by
  intro e he
  unfold Interpreter.southScan at he
  obtain ⟨i, _, hi⟩ := List.mem_filterMap.mp he
  split at hi
  · cases hi
    rfl
  · cases hi

/-- Every entry of the EAST scan is labelled EAST. -/
lemma eastScan_label (map : List (List Char)) (loc : SourceLocation) :
    ∀ e ∈ Interpreter.eastScan map loc, e.2.2 = Direction.EAST := by
  intro e he
  unfold Interpreter.eastScan at he
  split at he
  · rw [List.mem_singleton] at he
    subst he
    rfl
  · cases he

/-- Every entry of the WEST scan is labelled WEST. -/
lemma westScan_label (map : List (List Char)) (loc : SourceLocation) :
    ∀ e ∈ Interpreter.westScan map loc, e.2.2 = Direction.WEST := by
  intro e he
  unfold Interpreter.westScan at he
  split at he
  · cases he
  · split at he
    · rw [List.mem_singleton] at he
      subst he
      rfl
    · cases he

/-- Every entry of a direction group carries that direction's label. -/
lemma dirScan_label (map : List (List Char)) (loc : SourceLocation) (rev : Bool)
    (d : Direction) : ∀ e ∈ Interpreter.dirScan map loc rev d, e.2.2 = d := by
  intro e he
  cases d with
  | NORTH =>
    simp only [Interpreter.dirScan] at he
    split at he
    · exact northScan_label map loc e (List.mem_reverse.mp he)
    · exact northScan_label map loc e he
  | SOUTH =>
    simp only [Interpreter.dirScan] at he
    split at he
    · exact southScan_label map loc e he
    · exact southScan_label map loc e (List.mem_reverse.mp he)
  | EAST =>
    simp only [Interpreter.dirScan] at he
    exact eastScan_label map loc e he
  | WEST =>
    simp only [Interpreter.dirScan] at he
    exact westScan_label map loc e he

/-- Filtering a direction group by its own label keeps it; by another label
it empties it. -/
lemma dirScan_filter (map : List (List Char)) (loc : SourceLocation) (rev : Bool)
    (d d' : Direction) :
    (Interpreter.dirScan map loc rev d').filter (fun e => e.2.2 == d)
      = if d' = d then Interpreter.dirScan map loc rev d' else [] := by
  split
  · next h =>
    subst h
    rw [List.filter_eq_self]
    intro a ha
    simp [dirScan_label map loc rev d' a ha]
  · next h =>
    rw [List.filter_eq_nil_iff]
    intro a ha
    have := dirScan_label map loc rev d' a ha
    simp [this]
    exact fun hc => h hc

/-- The sub-list of `get_neighbors` carrying one direction's label is exactly
that direction's group, in the group's own scan order. -/
lemma get_neighbors_filter (map : List (List Char)) (loc : SourceLocation)
    (m : Interpreter.StationModifiers) (d : Direction) :
    (Interpreter.get_neighbors map loc m).filter (fun e => e.2.2 == d)
      = Interpreter.dirScan map loc m.reverse d := by
  obtain ⟨r, p⟩ := m
  cases r <;> cases p <;> cases d <;>
    simp [Interpreter.get_neighbors, Interpreter.dirOrder, List.filter_append,
      dirScan_filter]

/-- The NORTH scan is strictly increasing in column. -/
lemma northScan_pairwise (map : List (List Char)) (loc : SourceLocation) :
    (Interpreter.northScan map loc).Pairwise (fun a b => a.2.1 < b.2.1) := by
  unfold Interpreter.northScan
  split
  · exact List.Pairwise.nil
  · rw [List.pairwise_filterMap]
    refine (List.pairwise_lt_range loc.len).imp ?_
    intro i j hij b hb b' hb'
    split at hb
    · cases hb
      split at hb'
      · cases hb'
        simpa using hij
      · cases hb'
    · cases hb

/-- The SOUTH scan is strictly increasing in column. -/
lemma southScan_pairwise (map : List (List Char)) (loc : SourceLocation) :
    (Interpreter.southScan map loc).Pairwise (fun a b => a.2.1 < b.2.1) := by
  unfold Interpreter.southScan
  rw [List.pairwise_filterMap]
  refine (List.pairwise_lt_range loc.len).imp ?_
  intro i j hij b hb b' hb'
  split at hb
  · cases hb
    split at hb'
    · cases hb'
      simpa using hij
    · cases hb'
  · cases hb

/-- The EAST scan has at most one entry. -/
lemma eastScan_short (map : List (List Char)) (loc : SourceLocation) :
    (Interpreter.eastScan map loc).length ≤ 1 := by
  unfold Interpreter.eastScan
  split <;> simp

/-- The WEST scan has at most one entry. -/
lemma westScan_short (map : List (List Char)) (loc : SourceLocation) :
    (Interpreter.westScan map loc).length ≤ 1 := by
  unfold Interpreter.westScan
  split
  · simp
  · split <;> simp

/-- Claim C1 (amended): within one direction the neighbor group is ordered by
the perpendicular coordinate, but the order depends on the rotation sense:
with reverse unset the NORTH group ascends and the SOUTH group descends in
column, with reverse set the two are flipped; EAST and WEST contribute at
most one entry each for a (single-row) station span. -/
theorem get_neighbors_group_order (map : List (List Char)) (loc : SourceLocation)
    (m : Interpreter.StationModifiers) :
    ((Interpreter.get_neighbors map loc m).filter
        (fun e => e.2.2 == Direction.NORTH)).Pairwise
      (fun a b => if m.reverse then b.2.1 < a.2.1 else a.2.1 < b.2.1)
    ∧ ((Interpreter.get_neighbors map loc m).filter
        (fun e => e.2.2 == Direction.SOUTH)).Pairwise
      (fun a b => if m.reverse then a.2.1 < b.2.1 else b.2.1 < a.2.1)
    ∧ ((Interpreter.get_neighbors map loc m).filter
        (fun e => e.2.2 == Direction.EAST)).length ≤ 1
    ∧ ((Interpreter.get_neighbors map loc m).filter
        (fun e => e.2.2 == Direction.WEST)).length ≤ 1 := by
  rw [get_neighbors_filter, get_neighbors_filter, get_neighbors_filter,
    get_neighbors_filter]
  cases hr : m.reverse
  · refine ⟨?_, ?_, ?_, ?_⟩
    · simpa [Interpreter.dirScan] using northScan_pairwise map loc
    · simpa [Interpreter.dirScan, List.pairwise_reverse] using southScan_pairwise map loc
    · simpa [Interpreter.dirScan] using eastScan_short map loc
    · simpa [Interpreter.dirScan] using westScan_short map loc
  · refine ⟨?_, ?_, ?_, ?_⟩
    · simpa [Interpreter.dirScan, List.pairwise_reverse] using northScan_pairwise map loc
    · simpa [Interpreter.dirScan] using southScan_pairwise map loc
    · simpa [Interpreter.dirScan] using eastScan_short map loc
    · simpa [Interpreter.dirScan] using westScan_short map loc

/-- Claim C1 (counterexample): on the grid and station of
test_get_neighbors_on_border (second half) with default modifiers, the SOUTH
group comes out in descending column order (2,1) before (2,0), so the
claimed ascending-column order for SOUTH groups fails. -/
theorem south_group_descending_cx :
    ¬ ((Interpreter.get_neighbors [[' ', ' '], ['[', ']'], [' ', ' ']]
          { line := 1, col := 0, len := 2 } Interpreter.StationModifiers.default).filter
        (fun e => e.2.2 == Direction.SOUTH)).Pairwise (fun a b => a.2.1 ≤ b.2.1) := by
  decide

/-- Binding a rotated list gives a rotation of the bound list. -/
lemma flatMap_rotate_isRotated {α β : Type} (l : List α) (f : α → List β) (k : Nat) :
    List.IsRotated ((l.rotate k).flatMap f) (l.flatMap f) := by
  cases l with
  | nil => simp
  | cons a tl =>
    rw [← List.rotate_mod]
    have hk : k % (a :: tl).length ≤ (a :: tl).length :=
      le_of_lt (Nat.mod_lt _ (by simp))
    rw [List.rotate_eq_drop_append_take hk, List.flatMap_append]
    conv_rhs => rw [← List.take_append_drop (k % (a :: tl).length) (a :: tl),
      List.flatMap_append]
    exact List.isRotated_append

/-- Every priority start of the rotation cycle is a rotation of the
NORTH-first cycle. -/
lemma dirOrder_eq_rotate (r : Bool) (p : Direction) :
    ∃ k, Interpreter.dirOrder r p = (Interpreter.dirOrder r Direction.NORTH).rotate k := by
  cases r <;> cases p
  exacts [⟨0, rfl⟩, ⟨2, rfl⟩, ⟨1, rfl⟩, ⟨3, rfl⟩, ⟨0, rfl⟩, ⟨2, rfl⟩, ⟨3, rfl⟩, ⟨1, rfl⟩]

/-- Reversing a rotation cycle lands in the opposite-sense cycle, up to
rotation. -/
lemma dirOrder_reverse_eq_rotate (r : Bool) (p : Direction) :
    ∃ k, (Interpreter.dirOrder r p).reverse
      = (Interpreter.dirOrder (!r) Direction.NORTH).rotate k := by
  cases r <;> cases p
  exacts [⟨1, rfl⟩, ⟨3, rfl⟩, ⟨0, rfl⟩, ⟨2, rfl⟩, ⟨1, rfl⟩, ⟨3, rfl⟩, ⟨2, rfl⟩, ⟨0, rfl⟩]

/-- Reversing one direction group lands in the group of the opposite
rotation sense. -/
lemma dirScan_reverse (map : List (List Char)) (loc : SourceLocation) (rev : Bool)
    (d : Direction) :
    (Interpreter.dirScan map loc rev d).reverse = Interpreter.dirScan map loc (!rev) d := by
  have he : (Interpreter.eastScan map loc).reverse = Interpreter.eastScan map loc := by
    unfold Interpreter.eastScan
    split <;> rfl
  have hw : (Interpreter.westScan map loc).reverse = Interpreter.westScan map loc := by
    unfold Interpreter.westScan
    split
    · rfl
    · split <;> rfl
  cases rev <;> cases d <;> simp [Interpreter.dirScan, he, hw]

/-- `get_neighbors` with any priority is a rotation of the NORTH-priority
list of the same rotation sense. -/
lemma get_neighbors_isRotated_base (map : List (List Char)) (loc : SourceLocation)
    (r : Bool) (p : Direction) :
    List.IsRotated (Interpreter.get_neighbors map loc ⟨r, p⟩)
      (Interpreter.get_neighbors map loc ⟨r, Direction.NORTH⟩) := by
  obtain ⟨k, hk⟩ := dirOrder_eq_rotate r p
  unfold Interpreter.get_neighbors
  rw [show (Interpreter.StationModifiers.mk r p).reverse = r from rfl,
    show (Interpreter.StationModifiers.mk r p).priority = p from rfl,
    show (Interpreter.StationModifiers.mk r Direction.NORTH).priority
      = Direction.NORTH from rfl, hk]
  exact flatMap_rotate_isRotated _ _ _

/-- The reverse of `get_neighbors` is a rotation of the NORTH-priority list
of the opposite rotation sense. -/
lemma get_neighbors_reverse_isRotated (map : List (List Char)) (loc : SourceLocation)
    (r : Bool) (p : Direction) :
    List.IsRotated ((Interpreter.get_neighbors map loc ⟨r, p⟩).reverse)
      (Interpreter.get_neighbors map loc ⟨!r, Direction.NORTH⟩) := by
  obtain ⟨k, hk⟩ := dirOrder_reverse_eq_rotate r p
  unfold Interpreter.get_neighbors
  rw [show (Interpreter.StationModifiers.mk r p).reverse = r from rfl,
    show (Interpreter.StationModifiers.mk r p).priority = p from rfl,
    show (Interpreter.StationModifiers.mk (!r) Direction.NORTH).reverse = !r from rfl,
    show (Interpreter.StationModifiers.mk (!r) Direction.NORTH).priority
      = Direction.NORTH from rfl]
  rw [List.reverse_flatMap]
  have hcongr : (Interpreter.dirOrder r p).reverse.flatMap
      (List.reverse ∘ Interpreter.dirScan map loc r)
      = (Interpreter.dirOrder r p).reverse.flatMap (Interpreter.dirScan map loc (!r)) :=
    List.flatMap_congr (fun d _ => dirScan_reverse map loc r d)
  rw [hcongr, hk]
  exact flatMap_rotate_isRotated _ _ _

/-- Claim C2: `get_neighbors` is a pure function of grid and modifiers
(a Lean function of exactly those arguments); toggling reverse yields a
cyclic rotation of the mirrored (reversed) list over the same entries, and
changing priority yields a cyclic rotation of the same list — neither adds
nor removes an entry. -/
theorem get_neighbors_modifier_laws (map : List (List Char)) (loc : SourceLocation)
    (m : Interpreter.StationModifiers) :
    (List.IsRotated
        (Interpreter.get_neighbors map loc (Interpreter.StationModifiers.reverse' m))
        ((Interpreter.get_neighbors map loc m).reverse)
      ∧ (Interpreter.get_neighbors map loc (Interpreter.StationModifiers.reverse' m)).Perm
        (Interpreter.get_neighbors map loc m))
    ∧ ∀ d,
      List.IsRotated
        (Interpreter.get_neighbors map loc (Interpreter.StationModifiers.with_priority m d))
        (Interpreter.get_neighbors map loc m)
      ∧ (Interpreter.get_neighbors map loc
          (Interpreter.StationModifiers.with_priority m d)).Perm
        (Interpreter.get_neighbors map loc m) := by
  obtain ⟨r, p⟩ := m
  have hrev : List.IsRotated (Interpreter.get_neighbors map loc ⟨!r, p⟩)
      ((Interpreter.get_neighbors map loc ⟨r, p⟩).reverse) :=
    (get_neighbors_isRotated_base map loc (!r) p).trans
      (get_neighbors_reverse_isRotated map loc r p).symm
  constructor
  · refine ⟨hrev, ?_⟩
    exact (hrev.perm).trans ((Interpreter.get_neighbors map loc ⟨r, p⟩).reverse_perm)
  · intro d
    have hpr : List.IsRotated (Interpreter.get_neighbors map loc ⟨r, d⟩)
        (Interpreter.get_neighbors map loc ⟨r, p⟩) :=
      (get_neighbors_isRotated_base map loc r d).trans
        (get_neighbors_isRotated_base map loc r p).symm
    exact ⟨hpr, hpr.perm⟩
